import Mathlib

/-!
Shallow embedding of scipy/linalg/basic.py (solve, solve_banded, solveh_banded,
solve_toeplitz, inv, lstsq, pinv, pinv2, pinvh).

Conventions of the embedding:
  * a complex double-precision scalar is a pair of exact rationals (re, im);
  * a matrix is a list of rows, a vector a list of scalars;
  * the external LAPACK kernels (posv, gesv, gtsv, gbsv, ptsv, pbsv, getrf,
    getri, gelss, ...) are out of scope in the source, so each dispatcher is
    modelled as a function of the kernel outcome (solution buffer plus integer
    status), or as a function computing the exact arguments and overwrite
    permissions handed to the kernel;
  * validation copies made by the helper that normalizes array input
    (a fresh buffer distinct from the caller's) are modelled by explicit
    booleans abWasCopied / bWasCopied, mirroring the source's use of the
    helper that reports whether validation copied the data.
-/

/-- A complex double-precision scalar, modelled with exact rational parts. -/
structure CD where
  re : ℚ
  im : ℚ
deriving DecidableEq

/-- Complex conjugation, as used by numpy's conj / .conjugate(). -/
def CD.conj (z : CD) : CD := ⟨z.re, -z.im⟩

/-- Squared magnitude, as in abs(z)**2. -/
def CD.abs2 (z : CD) : ℚ := z.re * z.re + z.im * z.im

/-- The zero scalar. -/
def CD.zero : CD := ⟨0, 0⟩

/-- Row i of a matrix stored as a list of rows (empty row when out of range). -/
def rowD (ab : List (List CD)) (i : Nat) : List CD := ab.getD i []

/-- Outcome of a LAPACK solving kernel: the solution buffer and the integer
status code (info). -/
structure KOut where
  x : List (List CD)
  info : Int
deriving DecidableEq

/-- The failure taxonomy of the solver layer, as raised in basic.py. -/
inductive LinErr where
  /-- ValueError: expected square matrix. -/
  | notSquare
  /-- ValueError: incompatible dimensions. -/
  | dimMismatch
  /-- LinAlgError: singular matrix. -/
  | singularMatrix
  /-- ValueError: illegal value in the k-th argument of the internal kernel. -/
  | invalidArgument (k : Int)
deriving DecidableEq

/-- The shared status interpretation of basic.py lines 95-100: info 0 returns
the solution, positive info raises the singular-matrix failure, negative info
raises the invalid-argument failure. -/
def statusInterp (r : KOut) : Except LinErr (List (List CD)) :=
  if r.info = 0 then .ok r.x
  else if 0 < r.info then .error .singularMatrix
  else .error (.invalidArgument (-r.info))

/-- scipy.linalg.solve, basic.py lines 74-100, with the two external kernels
(posv for sym_pos, gesv otherwise) given by their outcomes.  The shape checks
come first; then exactly one kernel is consulted according to sym_pos, and its
status is interpreted by the shared tail of the function. -/
def solve (aRows aCols bRows : Nat) (sym_pos : Bool) (posv gesv : KOut) :
    Except LinErr (List (List CD)) :=
  if aRows ≠ aCols then .error .notSquare
  else if aRows ≠ bRows then .error .dimMismatch
  else statusInterp (if sym_pos then posv else gesv)

/-- The arguments solve_banded (basic.py lines 214-238) hands to the LAPACK
kernel.  On the tridiagonal path (l = u = 1) the kernel gtsv receives the
three diagonal slices of the validated array a1 (views of it, hence of the
caller's ab whenever validation made no copy) plus the overwrite permissions;
on the general path the kernel gbsv receives a freshly allocated expanded
array with overwrite permission hardwired to true. -/
structure BandedCall where
  usesTridiag : Bool
  /-- gtsv path: the superdiagonal slice a1[0, 1:]. -/
  duArg : List CD
  /-- gtsv path: the main diagonal slice a1[1, :]. -/
  dArg : List CD
  /-- gtsv path: the subdiagonal slice a1[2, :-1]. -/
  dlArg : List CD
  /-- gbsv path: the expanded matrix argument a2. -/
  gbArg : List (List CD)
  /-- whether the band data the kernel receives aliases the caller's ab. -/
  kernelSeesCallersAb : Bool
  /-- the overwrite permission passed for the band argument. -/
  owAb : Bool
  /-- the overwrite permission passed for the right-hand side. -/
  owB : Bool
deriving DecidableEq

/-- The kernel call computed by solve_banded, after shape validation, as a
function of the validated band array a1, of whether validation copied ab
respectively b, and of the two caller overwrite flags.  Mirrors basic.py
lines 224-238; on the tridiagonal path the source computes the band overwrite
permission as overwrite_ab or _datacopied(b1, b), i.e. from the copy status of
the right-hand side b, which is modelled verbatim here. -/
def solve_banded_call (l u : Nat) (a1 : List (List CD))
    (abWasCopied bWasCopied overwrite_ab overwrite_b : Bool) : BandedCall :=
  let ow_b := overwrite_b || bWasCopied
  if l = 1 ∧ u = 1 then
    { usesTridiag := true
      duArg := (rowD a1 0).drop 1
      dArg := rowD a1 1
      dlArg := (rowD a1 2).dropLast
      gbArg := []
      kernelSeesCallersAb := !abWasCopied
      owAb := overwrite_ab || bWasCopied
      owB := ow_b }
  else
    { usesTridiag := false
      duArg := []
      dArg := []
      dlArg := []
      gbArg := List.replicate l (List.replicate (rowD a1 0).length CD.zero) ++ a1
      kernelSeesCallersAb := false
      owAb := true
      owB := ow_b }

/-- The kernel call selected by solveh_banded, basic.py lines 304-316: either
the positive-definite-tridiagonal kernel ptsv with a real diagonal d and a
scalar off-diagonal vector e, or the general Hermitian-banded kernel pbsv with
the band array itself. -/
inductive HBandCall where
  | ptsv (d : List ℚ) (e : List CD)
  | pbsv (ab : List (List CD))
deriving DecidableEq

/-- Whether the call is to the dedicated positive-definite-tridiagonal kernel. -/
def HBandCall.isPtsv : HBandCall → Bool
  | .ptsv _ _ => true
  | .pbsv _ => false

/-- The diagonal argument of a ptsv call (empty for pbsv). -/
def HBandCall.dArg : HBandCall → List ℚ
  | .ptsv d _ => d
  | .pbsv _ => []

/-- The off-diagonal argument of a ptsv call (empty for pbsv). -/
def HBandCall.eArg : HBandCall → List CD
  | .ptsv _ e => e
  | .pbsv _ => []

/-- The kernel call computed by solveh_banded from the validated band array a1,
mirroring basic.py lines 304-316: with exactly two storage rows, ptsv receives
the real part of the main-diagonal row (row 0 in lower form, row 1 in upper
form) and the off-diagonal slice (a1[1, :-1] unconjugated in lower form,
a1[0, 1:] conjugated in upper form); otherwise pbsv receives a1. -/
def solveh_banded_call (lower : Bool) (a1 : List (List CD)) : HBandCall :=
  if a1.length = 2 then
    if lower then
      .ptsv ((rowD a1 0).map CD.re) ((rowD a1 1).dropLast)
    else
      .ptsv ((rowD a1 1).map CD.re) (((rowD a1 0).drop 1).map CD.conj)
  else .pbsv a1

/-- Entry (i, j) of the Hermitian banded matrix represented by the storage
array ab with u super-diagonals, following the storage convention documented
in solveh_banded: in upper form ab[u+i-j, j] = a[i, j] for i ≤ j, in lower
form ab[i-j, j] = a[i, j] for i ≥ j, the other triangle being the conjugate
transpose. -/
def hbandEntry (lower : Bool) (u : Nat) (ab : List (List CD)) (i j : Nat) : CD :=
  if lower then
    if j ≤ i then (rowD ab (i - j)).getD j CD.zero
    else CD.conj ((rowD ab (j - i)).getD i CD.zero)
  else
    if i ≤ j then (rowD ab (u + i - j)).getD j CD.zero
    else CD.conj ((rowD ab (u + j - i)).getD i CD.zero)


/-- Outcome of the argument handling of solve_toeplitz, basic.py lines
362-376: the required-argument failure for a missing b, the incompatible-
dimensions failure for a generator-length mismatch, or entry into the
Levinson recursion with the generator vector. -/
inductive ToepOutcome where
  | missingB
  | dimMismatch
  | recurse (vals : List CD)
deriving DecidableEq

/-- The generator vector of solve_toeplitz, basic.py line 372: a reversed copy
of r[1:] followed by c (np.concatenate((r[-1:0:-1], c))). -/
def toeplitzVals (c r : List CD) : List CD := (r.drop 1).reverse ++ c

/-- The front end of solve_toeplitz, basic.py lines 362-376: r defaults to the
conjugate of c when only c is supplied, the generator vector is built, then b
is required to be present and the generator length is checked against
2 * b.rows - 1 (computed over Int, as Python arithmetic is signed). -/
def solve_toeplitz_check (c : List CD) (r? : Option (List CD))
    (b? : Option (List CD)) : ToepOutcome :=
  let r := r?.getD (c.map CD.conj)
  let vals := toeplitzVals c r
  match b? with
  | none => .missingB
  | some b =>
      if (vals.length : Int) ≠ 2 * (b.length : Int) - 1 then .dimMismatch
      else .recurse vals

/-- The getri invocation computed by inv: whether the inversion kernel is
reached and the workspace size passed to it. -/
structure InvCall where
  called : Bool
  lwork : Nat
deriving DecidableEq

/-- basic.py lines 452-467 as a function of the getrf status, the workspace
query status and the queried size: after a successful factorization and a
successful query the queried size is inflated to int(1.01 * lwork), modelled
in exact arithmetic as the floor of 101 * lwork / 100, and getri is invoked
with the inflated size. -/
def inv_getri_call (getrfInfo queryInfo : Int) (lworkQueried : Nat) : InvCall :=
  if getrfInfo = 0 then
    if queryInfo ≠ 0 then ⟨false, 0⟩
    else ⟨true, ⌊(101 * (lworkQueried : ℚ)) / 100⌋₊⟩
  else ⟨false, 0⟩

/-- The 4-tuple returned by lstsq: solution, residual artifact, effective
rank, singular values. -/
structure LstsqResult where
  x : List (List CD)
  resids : List ℚ
  rank : Nat
  s : List ℚ
deriving DecidableEq

/-- Outcome of the gelss kernel: the raw solution buffer (written into the
right-hand-side buffer, hence max(m, n) rows), the singular values, the
effective rank and the integer status. -/
structure GelssOut where
  x : List (List CD)
  s : List ℚ
  rank : Nat
  info : Int
deriving DecidableEq

/-- lstsq failure taxonomy: shape mismatch, unknown driver, convergence
failure or illegal kernel argument, and the unbound-local failure that the
source raises on the drivers whose branch never assigns the outputs. -/
inductive LstsqErr where
  | dimMismatch
  | badDriver (d : String)
  | convergenceFailure
  | illegalValue (k : Int)
  | unboundLocal
deriving DecidableEq

/-- Per-column sums of squared magnitudes over the rows,
np.sum(np.abs(rows)**2, axis=0) for an nrhs-column buffer. -/
def colSumsAbs2 (rows : List (List CD)) (nrhs : Nat) : List ℚ :=
  (List.range nrhs).map
    (fun j => (rows.map (fun r => CD.abs2 (r.getD j CD.zero))).sum)

/-- scipy.linalg.lstsq, basic.py lines 592-639, for an m x n matrix and a
right-hand side with bRows rows and nrhs columns, with the gelss kernel
outcome given.  After the dimension check and the driver validation, only the
gelss branch runs a kernel and assembles the outputs (status interpretation,
then the residual artifact from the excess rows of the raw solution when
n < m and rank = n, then truncation of the solution to n rows); the gelsd and
gelsy drivers fall through to the final return with the local names x, resids,
rank, s never assigned, which raises an unbound-local failure, modelled as the
unboundLocal error. -/
def lstsq (m n bRows nrhs : Nat) (driver : String) (kern : GelssOut) :
    Except LstsqErr LstsqResult :=
  if m ≠ bRows then .error .dimMismatch
  else if driver ≠ "gelsd" ∧ driver ≠ "gelsy" ∧ driver ≠ "gelss" then
    .error (.badDriver driver)
  else if driver = "gelss" then
    if 0 < kern.info then .error .convergenceFailure
    else if kern.info < 0 then .error (.illegalValue (-kern.info))
    else
      let resids : List ℚ :=
        if n < m ∧ kern.rank = n then colSumsAbs2 (kern.x.drop n) nrhs else []
      let x := if n < m then kern.x.take n else kern.x
      .ok ⟨x, resids, kern.rank, kern.s⟩
  else .error .unboundLocal

/-- scipy.linalg.pinv, basic.py lines 686-696: the right-hand side is the
identity sized to the row count of a, and the work is delegated to lstsq with
cond passed through and the driver left at its default, gelsd. -/
def pinv (m n : Nat) (kern : GelssOut) :
    Except LstsqErr (List (List CD) × Nat) :=
  match lstsq m n m m "gelsd" kern with
  | .ok r => .ok (r.x, r.rank)
  | .error e => .error e

/-- Machine epsilon of the element type (np.finfo(t).eps): 2^-23 for single
precision, 2^-52 for double precision. -/
def machEps (single : Bool) : ℚ := if single then 1 / 2 ^ 23 else 1 / 2 ^ 52

/-- pinv2's default cutoff, basic.py lines 750-753: factor 1e3 for single and
1e6 for double precision, times machine epsilon. -/
def pinv2CutoffDefault (single : Bool) : ℚ :=
  (if single then 1000 else 1000000) * machEps single

/-- pinvh's default cutoff, basic.py lines 825-828, a separate copy of the
same factor table as pinv2's. -/
def pinvhCutoffDefault (single : Bool) : ℚ :=
  (if single then 1000 else 1000000) * machEps single

/-- Claim C6: with sym_pos (assume_spd) set, the Cholesky kernel's status alone
decides the outcome of solve: a positive status from posv is a singular-matrix
failure and the general LU kernel is never consulted (the result is the same
for every gesv outcome); for both the SPD and the general paths, status 0
returns the kernel's solution, a positive status raises the singular-matrix
failure, and a negative status raises the invalid-argument failure. -/
theorem solve_status_dispatch (n : Nat) (posv gesv gesv2 : KOut) :
    (solve n n n true posv gesv = solve n n n true posv gesv2)
  ∧ (posv.info = 0 → solve n n n true posv gesv = .ok posv.x)
  ∧ (0 < posv.info → solve n n n true posv gesv = .error .singularMatrix)
  ∧ (posv.info < 0 → solve n n n true posv gesv =
      .error (.invalidArgument (-posv.info)))
  ∧ (gesv.info = 0 → solve n n n false posv gesv = .ok gesv.x)
  ∧ (0 < gesv.info → solve n n n false posv gesv = .error .singularMatrix)
  ∧ (gesv.info < 0 → solve n n n false posv gesv =
      .error (.invalidArgument (-gesv.info))) := by
  have hT : ∀ g : KOut, solve n n n true posv g = statusInterp posv := by
    intro g; simp [solve]
  have hF : solve n n n false posv gesv = statusInterp gesv := by
    simp [solve]
  refine ⟨by rw [hT, hT], ?_, ?_, ?_, ?_, ?_, ?_⟩ <;> intro h
  · rw [hT, statusInterp, if_pos h]
  · rw [hT, statusInterp, if_neg (by omega), if_pos h]
  · rw [hT, statusInterp, if_neg (by omega), if_neg (by omega)]
  · rw [hF, statusInterp, if_pos h]
  · rw [hF, statusInterp, if_neg (by omega), if_pos h]
  · rw [hF, statusInterp, if_neg (by omega), if_neg (by omega)]

/-- Witness for C6: at a concrete input with a positive posv status, solve with
sym_pos returns the singular-matrix failure. -/
theorem solve_status_dispatch_w :
    solve 1 1 1 true ⟨[], 1⟩ ⟨[], 0⟩ = .error .singularMatrix :=
  (solve_status_dispatch 1 ⟨[], 1⟩ ⟨[], 0⟩ ⟨[], 0⟩).2.2.1 (by decide)

/-- Claim C2 (failing input): on the tridiagonal path of solve_banded with
overwrite_ab = false and overwrite_b = false, when validation copied b but not
ab, the kernel nevertheless receives permission to overwrite the band data,
which aliases the caller's ab buffer: the source derives the band overwrite
permission from the copy status of b instead of ab. -/
theorem solve_banded_owab_from_b_bug :
    (solve_banded_call 1 1 [[⟨1, 0⟩, ⟨2, 0⟩], [⟨3, 0⟩, ⟨4, 0⟩], [⟨5, 0⟩, ⟨6, 0⟩]]
        false true false false).owAb = true
  ∧ (solve_banded_call 1 1 [[⟨1, 0⟩, ⟨2, 0⟩], [⟨3, 0⟩, ⟨4, 0⟩], [⟨5, 0⟩, ⟨6, 0⟩]]
        false true false false).kernelSeesCallersAb = true := by
  decide

/-- Claim C9: on the general (non-tridiagonal) path of solve_banded the kernel
call is identical for both values of overwrite_ab, the band data it receives
never aliases the caller's ab, and the donated matrix (with overwrite
hardwired true) is a fresh (2l+u+1)-row array whose first l rows are zero and
whose lower block is the validated band array. -/
theorem solve_banded_general_fresh (l u : Nat) (a1 : List (List CD))
    (abWasCopied bWasCopied overwrite_ab overwrite_b : Bool)
    (hlu : ¬ (l = 1 ∧ u = 1)) (hlen : a1.length = l + u + 1) :
    (solve_banded_call l u a1 abWasCopied bWasCopied overwrite_ab overwrite_b
      = solve_banded_call l u a1 abWasCopied bWasCopied (!overwrite_ab) overwrite_b)
  ∧ (solve_banded_call l u a1 abWasCopied bWasCopied overwrite_ab
        overwrite_b).kernelSeesCallersAb = false
  ∧ (solve_banded_call l u a1 abWasCopied bWasCopied overwrite_ab
        overwrite_b).owAb = true
  ∧ (solve_banded_call l u a1 abWasCopied bWasCopied overwrite_ab
        overwrite_b).gbArg.length = 2 * l + u + 1
  ∧ (solve_banded_call l u a1 abWasCopied bWasCopied overwrite_ab
        overwrite_b).gbArg.take l
      = List.replicate l (List.replicate (rowD a1 0).length CD.zero)
  ∧ (solve_banded_call l u a1 abWasCopied bWasCopied overwrite_ab
        overwrite_b).gbArg.drop l = a1 := by
  simp only [solve_banded_call, if_neg hlu]
  refine ⟨trivial, trivial, trivial, ?_, ?_, ?_⟩
  · simp [hlen]; omega
  · exact List.take_left' (List.length_replicate ..)
  · exact List.drop_left' (List.length_replicate ..)

/-- Witness for C9: a concrete l = 0, u = 1 banded system, with overwrite_ab
false and no validation copies, donates only the fresh expanded array. -/
theorem solve_banded_general_fresh_w :
    ((solve_banded_call 0 1 [[⟨1, 0⟩, ⟨2, 0⟩], [⟨3, 0⟩, ⟨4, 0⟩]]
        false false false false).kernelSeesCallersAb = false)
  ∧ ((solve_banded_call 0 1 [[⟨1, 0⟩, ⟨2, 0⟩], [⟨3, 0⟩, ⟨4, 0⟩]]
        false false false false).gbArg.drop 0 = [[⟨1, 0⟩, ⟨2, 0⟩], [⟨3, 0⟩, ⟨4, 0⟩]]) :=
  ⟨(solve_banded_general_fresh 0 1 [[⟨1, 0⟩, ⟨2, 0⟩], [⟨3, 0⟩, ⟨4, 0⟩]]
      false false false false (by decide) (by decide)).2.1,
   (solve_banded_general_fresh 0 1 [[⟨1, 0⟩, ⟨2, 0⟩], [⟨3, 0⟩, ⟨4, 0⟩]]
      false false false false (by decide) (by decide)).2.2.2.2.2⟩

/-- Mapping a function over a list is mapping its entries over the index range. -/
theorem map_eq_map_range {α β : Type} (f : α → β) (d : α) (l : List α) :
    l.map f = (List.range l.length).map (fun i => f (l.getD i d)) := by
  apply List.ext_getElem
  · simp
  · intro i h1 h2
    simp only [List.getElem_map, List.getElem_range,
      List.getD_eq_getElem l d (by simp at h1; exact h1)]

/-- dropLast is the entry map over the truncated index range. -/
theorem dropLast_eq_map_range {α : Type} (d : α) (l : List α) :
    l.dropLast = (List.range (l.length - 1)).map (fun i => l.getD i d) := by
  apply List.ext_getElem
  · simp
  · intro i h1 h2
    have hi : i < l.length - 1 := by simpa using h1
    simp only [List.getElem_map, List.getElem_range,
      List.getD_eq_getElem l d (show i < l.length by omega), List.getElem_dropLast]

/-- Mapping over the tail is the shifted entry map over the truncated range. -/
theorem drop_one_map_eq_map_range {α β : Type} (f : α → β) (d : α) (l : List α) :
    (l.drop 1).map f
      = (List.range (l.length - 1)).map (fun i => f (l.getD (i + 1) d)) := by
  cases l with
  | nil => simp
  | cons a t =>
    simp only [List.drop_one, List.tail_cons, List.length_cons,
      Nat.add_sub_cancel, List.getD_cons_succ]
    exact map_eq_map_range f d t

/-- Claim C4 (counterexample): the claim predicts that on the two-storage-row
path the off-diagonal is conjugated in lower form and unconjugated in upper
form; on a concrete complex band array the code does the opposite in both
forms. -/
theorem solveh_banded_conj_cex :
    ((solveh_banded_call true [[⟨1, 0⟩, ⟨2, 0⟩], [⟨3, 4⟩, ⟨9, 9⟩]]).eArg
      ≠ ((rowD [[⟨1, 0⟩, ⟨2, 0⟩], [⟨3, 4⟩, ⟨9, 9⟩]] 1).dropLast).map CD.conj)
  ∧ ((solveh_banded_call false [[⟨9, 9⟩, ⟨3, 4⟩], [⟨1, 0⟩, ⟨2, 0⟩]]).eArg
      ≠ (rowD [[⟨9, 9⟩, ⟨3, 4⟩], [⟨1, 0⟩, ⟨2, 0⟩]] 0).drop 1) := by
  decide

/-- Claim C4 (amended): for a two-storage-row Hermitian-banded input the
positive-definite-tridiagonal kernel is invoked; it receives the real parts of
the main diagonal of the represented matrix and exactly its subdiagonal
entries, which means the off-diagonal storage row is taken unconjugated in
lower form and conjugated in upper form. -/
theorem solveh_banded_tridiag (lower : Bool) (r0 r1 : List CD) (n : Nat)
    (h0 : r0.length = n) (h1 : r1.length = n) :
    ((solveh_banded_call lower [r0, r1]).isPtsv = true)
  ∧ ((solveh_banded_call lower [r0, r1]).dArg
      = (List.range n).map (fun i => (hbandEntry lower 1 [r0, r1] i i).re))
  ∧ ((solveh_banded_call lower [r0, r1]).eArg
      = (List.range (n - 1)).map (fun i => hbandEntry lower 1 [r0, r1] (i + 1) i))
  ∧ ((solveh_banded_call true [r0, r1]).eArg = r1.dropLast)
  ∧ ((solveh_banded_call false [r0, r1]).eArg = (r0.drop 1).map CD.conj) := by
  have hlen : ([r0, r1] : List (List CD)).length = 2 := rfl
  have hr0 : rowD [r0, r1] 0 = r0 := rfl
  have hr1 : rowD [r0, r1] 1 = r1 := rfl
  refine ⟨?_, ?_, ?_, ?_, ?_⟩
  · cases lower <;> simp [solveh_banded_call, HBandCall.isPtsv]
  · cases lower
    · simp only [solveh_banded_call, if_pos hlen, Bool.false_eq_true, if_false,
        HBandCall.dArg, hr1, ← h1, map_eq_map_range CD.re CD.zero r1]
      congr 1
      funext i
      simp [hbandEntry, hr1]
    · simp only [solveh_banded_call, if_pos hlen, if_true, HBandCall.dArg,
        hr0, ← h0, map_eq_map_range CD.re CD.zero r0]
      congr 1
      funext i
      simp [hbandEntry, hr0]
  · cases lower
    · simp only [solveh_banded_call, if_pos hlen, Bool.false_eq_true, if_false,
        HBandCall.eArg, hr0, ← h0, drop_one_map_eq_map_range CD.conj CD.zero r0]
      congr 1
      funext i
      have hle : ¬ (i + 1 ≤ i) := by omega
      simp [hbandEntry, hr0, hle, show 1 + i - (i + 1) = 0 by omega]
    · simp only [solveh_banded_call, if_pos hlen, if_true, HBandCall.eArg,
        hr1, ← h1, dropLast_eq_map_range CD.zero r1]
      congr 1
      funext i
      simp [hbandEntry, hr1, Nat.le_succ, Nat.succ_sub]
  · simp [solveh_banded_call, HBandCall.eArg, hr1]
  · simp [solveh_banded_call, HBandCall.eArg, hr0]

/-- Witness for C4 (amended): a concrete complex lower-form band array, where
the kernel receives the unconjugated subdiagonal and the real diagonal. -/
theorem solveh_banded_tridiag_w :
    ((solveh_banded_call true [[⟨1, 2⟩, ⟨3, 4⟩], [⟨5, 6⟩, ⟨7, 8⟩]]).isPtsv = true)
  ∧ ((solveh_banded_call true [[⟨1, 2⟩, ⟨3, 4⟩], [⟨5, 6⟩, ⟨7, 8⟩]]).dArg
      = (List.range 2).map
          (fun i => (hbandEntry true 1 [[⟨1, 2⟩, ⟨3, 4⟩], [⟨5, 6⟩, ⟨7, 8⟩]] i i).re))
  ∧ ((solveh_banded_call true [[⟨1, 2⟩, ⟨3, 4⟩], [⟨5, 6⟩, ⟨7, 8⟩]]).eArg
      = (List.range (2 - 1)).map
          (fun i => hbandEntry true 1 [[⟨1, 2⟩, ⟨3, 4⟩], [⟨5, 6⟩, ⟨7, 8⟩]] (i + 1) i))
  ∧ ((solveh_banded_call true [[⟨1, 2⟩, ⟨3, 4⟩], [⟨5, 6⟩, ⟨7, 8⟩]]).eArg
      = ([⟨5, 6⟩, ⟨7, 8⟩] : List CD).dropLast)
  ∧ ((solveh_banded_call false [[⟨1, 2⟩, ⟨3, 4⟩], [⟨5, 6⟩, ⟨7, 8⟩]]).eArg
      = (([⟨1, 2⟩, ⟨3, 4⟩] : List CD).drop 1).map CD.conj) :=
  solveh_banded_tridiag true [⟨1, 2⟩, ⟨3, 4⟩] [⟨5, 6⟩, ⟨7, 8⟩] 2 (by decide) (by decide)

/-- Claim C8: whenever the LU factorization and the workspace query succeed,
inv invokes the inversion kernel, and the workspace size it passes is always
the queried size inflated by exactly 1 percent, int(1.01 * lwork), i.e. the
queried size plus its hundredth part rounded down; in particular the passed
size is never below the queried size. -/
theorem inv_lwork_margin (q : Nat) :
    ((inv_getri_call 0 0 q).called = true)
  ∧ ((inv_getri_call 0 0 q).lwork = q + q / 100)
  ∧ (q ≤ (inv_getri_call 0 0 q).lwork) := by
  have hfl : ⌊(101 * (q : ℚ)) / 100⌋₊ = q + q / 100 := by
    rw [show (101 * (q : ℚ)) = ((101 * q : ℕ) : ℚ) by push_cast; ring,
        show ((100 : ℚ)) = ((100 : ℕ) : ℚ) by norm_num, Nat.floor_div_nat,
        Nat.floor_natCast]
    omega
  have hcall : inv_getri_call 0 0 q = ⟨true, ⌊(101 * (q : ℚ)) / 100⌋₊⟩ := by
    simp [inv_getri_call]
  refine ⟨by rw [hcall], by rw [hcall]; exact hfl, ?_⟩
  rw [hcall]
  show q ≤ ⌊(101 * (q : ℚ)) / 100⌋₊
  rw [hfl]
  omega

/-- Claim C7: for a present right-hand side b, solve_toeplitz fails with the
incompatible-dimensions error exactly when the generator vector's length
differs from 2 * b.rows - 1; when the lengths match it proceeds into the
recursion with that generator vector, and with only c supplied the generator
is built from the conjugate of c. -/
theorem solve_toeplitz_dim_check (c b : List CD) (r? : Option (List CD)) :
    (solve_toeplitz_check c r? (some b) = .dimMismatch
      ↔ ((toeplitzVals c (r?.getD (c.map CD.conj))).length : Int)
          ≠ 2 * (b.length : Int) - 1)
  ∧ (((toeplitzVals c (r?.getD (c.map CD.conj))).length : Int)
        = 2 * (b.length : Int) - 1
      → solve_toeplitz_check c r? (some b)
          = .recurse (toeplitzVals c (r?.getD (c.map CD.conj))))
  ∧ (solve_toeplitz_check c none (some b) ≠ .missingB) := by
  by_cases hlen : ((toeplitzVals c (r?.getD (c.map CD.conj))).length : Int)
      = 2 * (b.length : Int) - 1
  · refine ⟨?_, fun _ => ?_, ?_⟩
    · simp [solve_toeplitz_check, hlen]
    · simp [solve_toeplitz_check, hlen]
    · cases hr : r? <;> simp [solve_toeplitz_check] <;> split <;> simp
  · refine ⟨?_, fun hc => absurd hc hlen, ?_⟩
    · simp [solve_toeplitz_check, hlen]
    · cases hr : r? <;> simp [solve_toeplitz_check] <;> split <;> simp

/-- Witness for C7: a concrete two-element c with r omitted and a two-row b
passes the length check and enters the recursion with the generator vector. -/
theorem solve_toeplitz_dim_check_w :
    solve_toeplitz_check [⟨1, 0⟩, ⟨2, 3⟩] none (some [⟨4, 0⟩, ⟨5, 0⟩])
      = .recurse (toeplitzVals [⟨1, 0⟩, ⟨2, 3⟩]
          ((none : Option (List CD)).getD (([⟨1, 0⟩, ⟨2, 3⟩] : List CD).map CD.conj))) :=
  (solve_toeplitz_dim_check [⟨1, 0⟩, ⟨2, 3⟩] [⟨4, 0⟩, ⟨5, 0⟩] none).2.1 (by decide)

/-- Claim C10: for any driver string outside the three supported ones, lstsq
fails with the bad-driver error whenever the shapes are compatible, and the
outcome does not depend on the kernel at all (the kernel is never invoked). -/
theorem lstsq_invalid_driver (m n bRows nrhs : Nat) (driver : String)
    (kern kern2 : GelssOut)
    (hd : driver ≠ "gelsd" ∧ driver ≠ "gelsy" ∧ driver ≠ "gelss")
    (hm : m = bRows) :
    (lstsq m n bRows nrhs driver kern = .error (.badDriver driver))
  ∧ (lstsq m n bRows nrhs driver kern = lstsq m n bRows nrhs driver kern2) := by
  subst hm
  unfold lstsq
  simp only [if_neg (show ¬ m ≠ m from fun hc => hc rfl), if_pos hd]
  exact ⟨trivial, trivial⟩

/-- Witness for C10: a concrete unknown driver name on a well-shaped system
yields the bad-driver error, independently of the kernel outcome. -/
theorem lstsq_invalid_driver_w :
    lstsq 1 1 1 1 "qr" ⟨[[⟨1, 0⟩]], [1], 1, 0⟩ = .error (.badDriver "qr") :=
  (lstsq_invalid_driver 1 1 1 1 "qr" ⟨[[⟨1, 0⟩]], [1], 1, 0⟩
    ⟨[], [], 0, 0⟩ (by decide) rfl).1

/-- Claim C5: whenever lstsq with the gelss driver returns, the residual
artifact is non-empty exactly when n < m and the effective rank equals n, and
in that case it equals the per-column sums of squared magnitudes of the rows
from n on (rows n..m-1, the raw kernel output having m rows) of the kernel's
raw output; otherwise it is the empty array. -/
theorem lstsq_gelss_residuals (m n bRows nrhs : Nat) (kern : GelssOut)
    (out : LstsqResult) (hok : lstsq m n bRows nrhs "gelss" kern = .ok out)
    (hn : 0 < nrhs) (_hx : kern.x.length = m) :
    (out.resids ≠ [] ↔ n < m ∧ out.rank = n)
  ∧ (n < m ∧ out.rank = n → out.resids = colSumsAbs2 (kern.x.drop n) nrhs)
  ∧ (¬ (n < m ∧ out.rank = n) → out.resids = []) := by
  unfold lstsq at hok
  by_cases hm : m ≠ bRows
  · rw [if_pos hm] at hok
    exact absurd hok (by simp)
  rw [if_neg hm,
      if_neg (show ¬ (("gelss" : String) ≠ "gelsd" ∧ ("gelss" : String) ≠ "gelsy"
        ∧ ("gelss" : String) ≠ "gelss") by simp),
      if_pos rfl] at hok
  by_cases h1 : 0 < kern.info
  · rw [if_pos h1] at hok
    exact absurd hok (by simp)
  rw [if_neg h1] at hok
  by_cases h2 : kern.info < 0
  · rw [if_pos h2] at hok
    exact absurd hok (by simp)
  rw [if_neg h2] at hok
  injection hok with hout
  subst hout
  dsimp only
  by_cases hc : n < m ∧ kern.rank = n
  · have hlen : (colSumsAbs2 (kern.x.drop n) nrhs).length = nrhs := by
      simp [colSumsAbs2]
    have hne : colSumsAbs2 (kern.x.drop n) nrhs ≠ [] := by
      intro hnil
      rw [hnil] at hlen
      simp at hlen
      omega
    rw [if_pos hc]
    exact ⟨⟨fun _ => hc, fun _ => hne⟩, fun _ => rfl, fun hcn => absurd hc hcn⟩
  · rw [if_neg hc]
    exact ⟨⟨fun hne => absurd rfl hne, fun hcc => absurd hcc hc⟩,
      fun hcc => absurd hcc hc, fun _ => rfl⟩

/-- Witness for C5: a concrete strictly overdetermined full-rank gelss return,
where the residual is the squared magnitude of the single excess row. -/
theorem lstsq_gelss_residuals_w :
    (((⟨[[⟨1, 0⟩]], colSumsAbs2 [[⟨2, 0⟩]] 1, 1, [5]⟩ : LstsqResult).resids ≠ []
        ↔ 1 < 2 ∧ (⟨[[⟨1, 0⟩]], colSumsAbs2 [[⟨2, 0⟩]] 1, 1, [5]⟩ : LstsqResult).rank = 1)
  ∧ (1 < 2 ∧ (⟨[[⟨1, 0⟩]], colSumsAbs2 [[⟨2, 0⟩]] 1, 1, [5]⟩ : LstsqResult).rank = 1
      → (⟨[[⟨1, 0⟩]], colSumsAbs2 [[⟨2, 0⟩]] 1, 1, [5]⟩ : LstsqResult).resids
          = colSumsAbs2 (([[⟨1, 0⟩], [⟨2, 0⟩]] : List (List CD)).drop 1) 1)
  ∧ (¬ (1 < 2 ∧ (⟨[[⟨1, 0⟩]], colSumsAbs2 [[⟨2, 0⟩]] 1, 1, [5]⟩ : LstsqResult).rank = 1)
      → (⟨[[⟨1, 0⟩]], colSumsAbs2 [[⟨2, 0⟩]] 1, 1, [5]⟩ : LstsqResult).resids = [])) :=
  lstsq_gelss_residuals 2 1 2 1 ⟨[[⟨1, 0⟩], [⟨2, 0⟩]], [5], 1, 0⟩
    ⟨[[⟨1, 0⟩]], colSumsAbs2 [[⟨2, 0⟩]] 1, 1, [5]⟩ rfl (by decide) rfl

/-- Claim C1 (failing input): with the default driver gelsd, and likewise with
gelsy, lstsq on a well-shaped 1 x 1 system with a successful kernel outcome
does not produce the documented 4-tuple: it fails with the unbound-local
error, because only the gelss branch assigns the outputs. -/
theorem lstsq_gelsd_gelsy_unbound :
    (lstsq 1 1 1 1 "gelsd" ⟨[[⟨1, 0⟩]], [1], 1, 0⟩ = .error .unboundLocal)
  ∧ (lstsq 1 1 1 1 "gelsy" ⟨[[⟨1, 0⟩]], [1], 1, 0⟩ = .error .unboundLocal) :=
  ⟨rfl, rfl⟩

/-- Claim C3 (failing input): pinv delegates to lstsq with the default driver
gelsd, so on any double-precision input (here 1 x 1 with a successful kernel
outcome) it fails with the unbound-local error before any effective rank via
least squares exists; the other two constructions, pinv2 and pinvh, do share
the identical default cutoff 1e6 times machine epsilon at double precision. -/
theorem pinv_default_driver_unbound :
    (pinv 1 1 ⟨[[⟨1, 0⟩]], [1], 1, 0⟩ = .error .unboundLocal)
  ∧ (pinv2CutoffDefault false = pinvhCutoffDefault false)
  ∧ (pinv2CutoffDefault false = 1000000 * machEps false) :=
  ⟨rfl, rfl, rfl⟩
